import Mathlib

/-!
Verification development for the go-common repository: a shallow embedding of
`src/web/base_controller.go` (package `web`: response serialization, the
validation adapter and the panic guard) and of the `localize` package
(translation-resource loading), together with theorems about the claims of
the specification.

External collaborators (the beego controller framework, the JSON encoder,
the beego validation engine, the go-i18n store) are treated as black boxes:
their results enter the embedding as explicit parameters, and an emission
through the controller is modelled as the pair of the status code set on the
output and the `MessageResponse` body handed to the JSON serializer.
-/

namespace GoCommon

/-- Modelled from the spec: the status-code constants live in the `errors`
package of this repository, which is not under `src/`; the spec treats them
as opaque integers. A concrete value is fixed only for executability; no
theorem depends on it. -/
def APP_ERROR_CODE : Int := 500

/-- Modelled from the spec: validation-failure status code from the `errors`
package (opaque integer). -/
def VALIDATION_ERROR_CODE : Int := 409

/-- Modelled from the spec: unauthorized status code from the `errors`
package (opaque integer). -/
def UNAUTHORIZED_ERROR_CODE : Int := 401

/-- Modelled from the spec: the fixed generic application-error message from
the `errors` package. -/
def APP_ERROR_MSG : String := "An Application Error has occurred"

/-- Modelled from the spec: the fixed generic validation-error message from
the `errors` package. -/
def VALIDATION_ERROR_MSG : String := "Validation Error"

/-- Modelled from the spec: the fixed unauthorized message from the `errors`
package. -/
def UNAUTHORIZED_ERROR_MSG : String := "UnAuthorized"

/-- `MessageResponse` of `base_controller.go`: the uniform wire envelope, a
list of messages. -/
structure MessageResponse where
  Messages : List String
deriving DecidableEq, Repr

/-- A Go `error` value as seen by `ServeError` / `ServeErrorResponse`: either
a `*aErrors.AppError` (code and message; the `AppError` type lives in the
`errors` package of this repository, not under `src/`, and is modelled from
the spec: `{code : integer (0 = unset), message : string}`, `Error()`
returning the message) or any other error, carrying its own rendered
`Error()` text. -/
inductive GoError where
  | appError (code : Int) (message : String)
  | generic (text : String)
deriving DecidableEq, Repr

/-- The `Error()` rendering of a Go error value. -/
def GoError.text : GoError → String
  | .appError _ m => m
  | .generic t => t

/-- An emission through the controller: the status code set via
`Ctx.Output.SetStatus` together with the `MessageResponse` body passed to
`ServeJson`. -/
abbrev Response := Int × MessageResponse

/-- `ServeMessagesWithStatus`: sets the status and serves the messages
wrapped in a `MessageResponse`. -/
def ServeMessagesWithStatus (status : Int) (msgs : List String) : Response :=
  (status, ⟨msgs⟩)

/-- `ServeMessageWithStatus`: serves a single message with a status. -/
def ServeMessageWithStatus (status : Int) (msg : String) : Response :=
  ServeMessagesWithStatus status [msg]

/-- `ServeError` (`base_controller.go` lines 98-116): an `AppError` keeps its
message, with its own code when nonzero and `APP_ERROR_CODE` otherwise; any
other error is served as the fixed generic message with `APP_ERROR_CODE`. -/
def ServeError : GoError → Response
  | .appError c m =>
      if c ≠ 0 then ServeMessageWithStatus c m
      else ServeMessageWithStatus APP_ERROR_CODE m
  | .generic _ => ServeMessageWithStatus APP_ERROR_CODE APP_ERROR_MSG

/-- `ServeErrorResponse` (`base_controller.go` lines 119-136): an `AppError`
keeps its message, with its own code when nonzero and `APP_ERROR_CODE`
otherwise; any other error is served with its own `Error()` text and
`APP_ERROR_CODE`. -/
def ServeErrorResponse : GoError → Response
  | .appError c m =>
      if c ≠ 0 then ServeMessageWithStatus c m
      else ServeMessageWithStatus APP_ERROR_CODE m
  | .generic t => ServeMessageWithStatus APP_ERROR_CODE t

/-- `ServeAppError` (`base_controller.go` lines 139-144): the generic
application error, always the fixed message with `APP_ERROR_CODE`. -/
def ServeAppError : Response :=
  ServeMessageWithStatus APP_ERROR_CODE APP_ERROR_MSG

/-- `ServeUnAuthorized` (`base_controller.go` lines 65-70). -/
def ServeUnAuthorized : Response :=
  ServeMessageWithStatus UNAUTHORIZED_ERROR_CODE UNAUTHORIZED_ERROR_MSG

/-- One field failure reported by the beego validator (`valid.Errors`):
the failed field's name and the validator's own message. -/
structure ValidationError where
  Field : String
  Message : String
deriving DecidableEq, Repr

/-- One Go-map write `messages2[typeField.Name] = tagValue`: a later
insertion for a key overwrites an earlier one; lookup of a key never
inserted returns `none` (the map's `ok == false`). -/
def mapInsert (m : String → Option String) (f : String × String) :
    String → Option String :=
  fun k => if k = f.1 then some f.2 else m k

/-- The `messages2` map of `ParseAndValidate` (lines 176-183): for every
declared field of the target structure, in declaration order, the field name
is mapped to its `error` tag value (possibly the empty string; `tag.Get`
also returns the empty string when the tag is absent). `fields` lists the
declared fields as (name, `error`-tag value) pairs in declaration order. -/
def buildOverrideMap (fields : List (String × String)) : String → Option String :=
  fields.foldl mapInsert (fun _ => none)

/-- The error-response loop of `ParseAndValidate` (lines 186-194): for each
validator-reported failure, in report order, append the map entry for the
failed field when the key is present (`ok == true`, even if the stored
override text is empty), and the validator's own message otherwise. -/
def buildErrors (messages2 : String → Option String) (errs : List ValidationError) :
    List String :=
  errs.map fun e =>
    match messages2 e.Field with
    | some message => message
    | none => e.Message

/-- `ParseAndValidate` (`base_controller.go` lines 160-201).
`parseFormFails` is whether `this.ParseForm(params)` returned a non-nil
error; `validResult` is the outcome of `valid.Valid(params)`: `none` when
the validator itself returned a non-nil error, otherwise
`some (ok, valid.Errors)`; `fields` are the target structure's declared
fields with their `error` tag values, in declaration order. The result is
the emitted response, if any, together with the boolean return value. -/
def ParseAndValidate (parseFormFails : Bool)
    (validResult : Option (Bool × List ValidationError))
    (fields : List (String × String)) : Option Response × Bool :=
  if parseFormFails then
    (some (ServeMessageWithStatus VALIDATION_ERROR_CODE VALIDATION_ERROR_MSG), false)
  else
    match validResult with
    | none =>
        (some (ServeMessageWithStatus VALIDATION_ERROR_CODE VALIDATION_ERROR_MSG), false)
    | some (ok, validErrors) =>
        if ok = false then
          let messages2 := buildOverrideMap fields
          let errors := buildErrors messages2 validErrors
          (some (ServeMessagesWithStatus VALIDATION_ERROR_CODE errors), false)
        else
          (none, true)

/-- Modelled from the spec: `helper.CatchPanic` lives in the `helper` package
of this repository, which is not under `src/`. Per the spec's PanicGuard
contract: if a runtime fault was recovered, it is logged, converted into a
non-nil error assigned through the caller's error pointer, and the function
reports `true`; if no fault occurred it reports `false` and leaves the error
pointer unchanged. `recovered` is the recovered fault, if any; `outErr` is
the value currently behind the caller's error pointer. -/
def helperCatchPanic (recovered : Option String) (outErr : Option String) :
    Option String × Bool :=
  match recovered with
  | some fault => (some fault, true)
  | none => (outErr, false)

/-- `CatchPanic` (`base_controller.go` lines 204-208): delegates to
`helper.CatchPanic` and, exactly when it reports a recovered fault, serves
the generic application error. The result is the value behind the caller's
error pointer after the guard, together with the list of responses the guard
emitted. -/
def CatchPanic (recovered : Option String) (outErr : Option String) :
    Option String × List Response :=
  let r := helperCatchPanic recovered outErr
  (r.1, if r.2 then [ServeAppError] else [])

/-- One entry of a directory listing as returned by `ioutil.ReadDir`: a file,
a subdirectory with its own (recursively known) listing, or a subdirectory
whose own `ReadDir` fails when attempted. The embedding carries the finite
filesystem tree explicitly in place of the real filesystem. -/
inductive Entry where
  | file (name : String)
  | dir (name : String) (children : List Entry)
  | dirErr (name : String)

/-- The `fileInfo.Name()` of a directory entry. -/
def Entry.name : Entry → String
  | .file n => n
  | .dir n _ => n
  | .dirErr n => n

/-- Go's `path.Ext` on a bare file name (no slashes occur in names returned
by `ReadDir`): the suffix beginning at the final dot, or the empty string
when the name contains no dot. -/
def pathExt (s : String) : String :=
  let rev := s.toList.reverse
  if rev.contains '.' then String.mk ('.' :: (rev.takeWhile (fun c => c ≠ '.')).reverse)
  else ""

/-- `loadTranslationFiles` (`localize` package, lines 332-351): reads a
resource folder's immediate listing and loads every entry whose name has
extension `.json` (the code checks only `path.Ext(fileInfo.Name())`, with no
file/directory distinction) into the i18n store, by its full path. Returns
the loaded full paths in listing order. The caller handles the folder's own
read failure (`Entry.dirErr`) before calling this. -/
def loadTranslationFiles (directory : String) (entries : List Entry) : List String :=
  entries.filterMap fun e =>
    if pathExt e.name ≠ ".json" then none
    else some (directory ++ "/" ++ e.name)

/-- The outcome of a traversal: the full paths of the resource folders passed
to `loadTranslationFiles` (each call recorded, in call order) and the full
paths of the translation files loaded. -/
structure SearchResult where
  processed : List String
  loaded : List String
deriving DecidableEq, Repr

/-- `searchDirectory` (`localize` package, lines 299-328) on the listing of
`directory`: for each subdirectory entry (files are ignored), form
`fullPath = directory ++ "/" ++ name`; skip it if `fullPath` equals the
working directory `pwd`; if it is named `i18n`, load its immediate
translation files without descending (a read failure there loads nothing);
otherwise recurse into it (a read failure logs and abandons that subtree). -/
def searchDirectory (directory pwd : String) : List Entry → SearchResult
  | [] => ⟨[], []⟩
  | e :: rest =>
    let r1 : SearchResult :=
      match e with
      | .file _ => ⟨[], []⟩
      | .dir n children =>
          let fullPath := directory ++ "/" ++ n
          if fullPath = pwd then ⟨[], []⟩
          else if n = "i18n" then ⟨[fullPath], loadTranslationFiles fullPath children⟩
          else searchDirectory fullPath pwd children
      | .dirErr n =>
          let fullPath := directory ++ "/" ++ n
          if fullPath = pwd then ⟨[], []⟩
          else if n = "i18n" then ⟨[fullPath], []⟩
          else ⟨[], []⟩
    let r2 := searchDirectory directory pwd rest
    ⟨r1.processed ++ r2.processed, r1.loaded ++ r2.loaded⟩

/-- `LoadFiles` (`localize` package, lines 272-295), traversal part:
`os.Getwd` failure aborts the load (`none`); otherwise the working
directory's tree is searched with `pwd` as both arguments, and, when the
`GOPATH` environment value is nonempty, the `GOPATH` tree is searched as a
second root with the same `pwd`. `pwdTree` and `gopathTree` are the listings
of the two roots (identical when the two paths coincide). The final
`i18n.Tfunc` binding is an external-store call and is outside the traversal
result. -/
def LoadFiles (gopath pwd : String) (gopathTree pwdTree : List Entry)
    (getwdOk : Bool) : Option SearchResult :=
  if getwdOk = false then none
  else
    let r1 := searchDirectory pwd pwd pwdTree
    let r2 := if gopath ≠ "" then searchDirectory gopath pwd gopathTree else ⟨[], []⟩
    some ⟨r1.processed ++ r2.processed, r1.loaded ++ r2.loaded⟩

/-- The record-registration loop of `LoadJSON` (`localize` package, lines
251-259): records are constructed in order via `translation.NewTranslation`
(abstracted as `newTranslation`, `none` meaning construction failure) and
each successful one is registered in the global i18n store under
`userLocale` before the next is attempted; the first failure aborts the loop
with an error, keeping everything registered so far. Returns the store and
whether an error occurred. -/
def loadRecs (userLocale : String) (newTranslation : String → Option String) :
    List String → List (String × String) → List (String × String) × Bool
  | [], store => (store, false)
  | r :: rs, store =>
    match newTranslation r with
    | none => (store, true)
    | some t => loadRecs userLocale newTranslation rs (store ++ [(userLocale, t)])

/-- `LoadJSON` (`localize` package, lines 243-268): `parsed` is the outcome
of `json.Unmarshal` on the translation document (`none` = parse failure,
which is returned at once with nothing registered); otherwise the records
are registered in order until the first construction failure, which is
returned with earlier registrations kept; on full success the translate
function is bound via `i18n.Tfunc` (an external call whose success is
`tfuncOk`). Returns the final store and whether the call returned an
error. -/
def LoadJSON (userLocale : String) (parsed : Option (List String))
    (newTranslation : String → Option String) (store : List (String × String))
    (tfuncOk : Bool) : List (String × String) × Bool :=
  match parsed with
  | none => (store, true)
  | some recs =>
    let r := loadRecs userLocale newTranslation recs store
    if r.2 then r else (r.1, !tfuncOk)

/-- Spec-level traversal, written from the claim's words for comparison with
`searchDirectory`: every directory named exactly `i18n` is not descended
into recursively and only its immediate children whose extension is `.json`
are registered; every other directory is descended into recursively; a
directory whose read fails contributes nothing. -/
def specResourceFiles (directory : String) : List Entry → List String
  | [] => []
  | e :: rest =>
    (match e with
     | .file _ => []
     | .dir n children =>
         if n = "i18n" then
           children.filterMap fun c =>
             if pathExt c.name = ".json" then
               some (directory ++ "/" ++ n ++ "/" ++ c.name)
             else none
         else specResourceFiles (directory ++ "/" ++ n) children
     | .dirErr _ => []) ++ specResourceFiles directory rest

/-- Whether no scanned subdirectory's full path inside the given listing
equals the working directory `pwd`, so the traversal's revisit-skip check
never fires. -/
def pwdFree (directory pwd : String) : List Entry → Bool
  | [] => true
  | e :: rest =>
    (match e with
     | .file _ => true
     | .dir n children =>
         !(directory ++ "/" ++ n = pwd : Bool) && pwdFree (directory ++ "/" ++ n) pwd children
     | .dirErr n => !(directory ++ "/" ++ n = pwd : Bool)) && pwdFree directory pwd rest

/-- The spec's concrete traversal example: a root holding `x/i18n/en.json`
together with a root-level `i18n` folder whose only content is a
subdirectory `sub` holding `x.json` one level too deep. -/
def exampleTree : List Entry :=
  [Entry.dir "x" [Entry.dir "i18n" [Entry.file "en.json"]],
   Entry.dir "i18n" [Entry.dir "sub" [Entry.file "x.json"]]]

/-! Theorems. -/

/-- Folding Go-map insertions whose keys all differ from `k` leaves the
map's value at `k` unchanged. -/
theorem foldl_mapInsert_apply_of_not_mem (fs : List (String × String))
    (m : String → Option String) (k : String) (h : ∀ p ∈ fs, p.1 ≠ k) :
    fs.foldl mapInsert m k = m k := by
  induction fs generalizing m with
  | nil => rfl
  | cons f fs ih =>
      rw [List.foldl_cons, ih (mapInsert m f) (fun p hp => h p (List.mem_cons_of_mem f hp))]
      have hf : f.1 ≠ k := h f (List.mem_cons_self f fs)
      simp only [mapInsert]
      rw [if_neg (fun hk : k = f.1 => hf hk.symm)]

/-- The value at `k` after folding Go-map insertions depends on the starting
map only through its value at `k`. -/
theorem foldl_mapInsert_congr (fs : List (String × String))
    (m₁ m₂ : String → Option String) (k : String) (h : m₁ k = m₂ k) :
    fs.foldl mapInsert m₁ k = fs.foldl mapInsert m₂ k := by
  induction fs generalizing m₁ m₂ with
  | nil => exact h
  | cons f fs ih =>
      rw [List.foldl_cons, List.foldl_cons]
      refine ih _ _ ?_
      by_cases hk : k = f.1 <;> simp [mapInsert, hk, h]

/-- When the declared field names are distinct (as Go struct field names
are), the Go map built by `buildOverrideMap` agrees with a first-match
lookup over the declaration list. -/
theorem buildOverrideMap_eq_find (fields : List (String × String))
    (hnd : (fields.map Prod.fst).Nodup) (k : String) :
    buildOverrideMap fields k
      = (fields.find? (fun p => p.1 == k)).map Prod.snd := by
  induction fields with
  | nil => rfl
  | cons f fs ih =>
      rw [List.map_cons, List.nodup_cons] at hnd
      obtain ⟨hf, hfs⟩ := hnd
      unfold buildOverrideMap
      rw [List.foldl_cons]
      by_cases hk : k = f.1
      · subst hk
        rw [foldl_mapInsert_apply_of_not_mem fs _ f.1
          (fun p hp hpk => hf (hpk ▸ List.mem_map_of_mem Prod.fst hp))]
        simp [mapInsert, List.find?_cons]
      · rw [foldl_mapInsert_congr fs _ (fun _ => none) k (by simp [mapInsert, hk])]
        have hbeq : (f.1 == k) = false :=
          beq_eq_false_iff_ne.mpr (fun h => hk h.symm)
        rw [List.find?_cons, hbeq]
        exact ih hfs

/-- When the declared field names are distinct, the error-response loop
resolves each validator-reported failure against the declaration list: a
failure on a declared field yields that field's `error`-tag text verbatim
(even when it is empty), any other failure yields the validator's own
message. -/
theorem buildErrors_buildOverrideMap (fields : List (String × String))
    (errs : List ValidationError) (hnd : (fields.map Prod.fst).Nodup) :
    buildErrors (buildOverrideMap fields) errs
      = errs.map (fun e =>
          match fields.find? (fun p => p.1 == e.Field) with
          | some p => p.2
          | none => e.Message) := by
  unfold buildErrors
  refine List.map_congr_left fun e _ => ?_
  rw [buildOverrideMap_eq_find fields hnd e.Field]
  cases fields.find? (fun p => p.1 == e.Field) <;> rfl

/-- Claim C2, counterexample: for fields `[A(override="custom A"),
B(override="")]` and validator failures on both with messages `"m_a"`,
`"m_b"`, the code emits `["custom A", ""]` — the empty override is used, not
the validator's `"m_b"` — refuting the claimed list
`["custom A", "m_b"]`. -/
theorem C2_empty_override_counterexample :
    ParseAndValidate false (some (false, [⟨"A", "m_a"⟩, ⟨"B", "m_b"⟩]))
        [("A", "custom A"), ("B", "")]
      = (some (VALIDATION_ERROR_CODE, ⟨["custom A", ""]⟩), false)
    ∧ ParseAndValidate false (some (false, [⟨"A", "m_a"⟩, ⟨"B", "m_b"⟩]))
        [("A", "custom A"), ("B", "")]
      ≠ (some (VALIDATION_ERROR_CODE, ⟨["custom A", "m_b"]⟩), false) := by
  constructor
  · decide
  · decide

/-- Claim C2 as amended: for distinct declared field names, each reported
failure on a declared field uses that field's override annotation text
verbatim — including the empty string — and only a failure on a field not
declared in the target structure falls back to the validator's own message;
messages appear in validator-report order. -/
theorem C2_override_resolution_corrected (fields : List (String × String))
    (errs : List ValidationError) (hnd : (fields.map Prod.fst).Nodup) :
    ParseAndValidate false (some (false, errs)) fields
      = (some (VALIDATION_ERROR_CODE,
          ⟨errs.map (fun e =>
            match fields.find? (fun p => p.1 == e.Field) with
            | some p => p.2
            | none => e.Message)⟩), false) := by
  simp only [ParseAndValidate, Bool.false_eq_true, if_false, if_true,
    ServeMessagesWithStatus, buildErrors_buildOverrideMap fields errs hnd]

/-- Witness for the amended C2 at the claim's own example: field names
`["A", "B"]` are distinct, and the emitted list is `["custom A", ""]`. -/
theorem C2_override_resolution_corrected_witness :
    (([("A", "custom A"), ("B", "")].map Prod.fst).Nodup : Prop)
    ∧ ParseAndValidate false (some (false, [⟨"A", "m_a"⟩, ⟨"B", "m_b"⟩]))
        [("A", "custom A"), ("B", "")]
      = (some (VALIDATION_ERROR_CODE, ⟨["custom A", ""]⟩), false) :=
  ⟨by decide,
    (C2_override_resolution_corrected [("A", "custom A"), ("B", "")]
      [⟨"A", "m_a"⟩, ⟨"B", "m_b"⟩] (by decide)).trans (by decide)⟩

/-- Claim C3, counterexample: with declaration order `[A, B]` but the
validator reporting `[B, A]`, the emitted list is `["ob", "oa"]` — the
validator-report order — not the declaration-order list `["oa", "ob"]`. -/
theorem C3_declaration_order_counterexample :
    ParseAndValidate false (some (false, [⟨"B", "m_b"⟩, ⟨"A", "m_a"⟩]))
        [("A", "oa"), ("B", "ob")]
      = (some (VALIDATION_ERROR_CODE, ⟨["ob", "oa"]⟩), false)
    ∧ ParseAndValidate false (some (false, [⟨"B", "m_b"⟩, ⟨"A", "m_a"⟩]))
        [("A", "oa"), ("B", "ob")]
      ≠ (some (VALIDATION_ERROR_CODE, ⟨["oa", "ob"]⟩), false) := by
  constructor
  · decide
  · decide

/-- Claim C3 as amended: the emitted message list follows the
validator-report order of the failures, not the declaration order of the
fields — reversing the validator's report reverses the emitted list, for
any declaration list. -/
theorem C3_validator_order_corrected (fields : List (String × String))
    (errs : List ValidationError) :
    (ParseAndValidate false (some (false, errs.reverse)) fields).1
      = (ParseAndValidate false (some (false, errs)) fields).1.map
          (fun r => (r.1, ⟨r.2.Messages.reverse⟩)) := by
  simp [ParseAndValidate, buildErrors, ServeMessagesWithStatus,
    List.map_reverse]

/-- Claim C1: for every error value that is not an `AppError`, the
error-serialization operation `ServeErrorResponse` emits status
`APP_ERROR_CODE` and body with exactly the error's own rendered text as its
single message — and, whenever that text differs from the fixed generic
message, the emission differs from `ServeAppError`'s, which is always the
fixed generic message. -/
theorem C1_serializeError_preserves_generic_text (t : String) :
    ServeErrorResponse (.generic t) = (APP_ERROR_CODE, ⟨[(GoError.generic t).text]⟩)
    ∧ ServeAppError = (APP_ERROR_CODE, ⟨[APP_ERROR_MSG]⟩)
    ∧ (t ≠ APP_ERROR_MSG → ServeErrorResponse (.generic t) ≠ ServeAppError) := by
  refine ⟨rfl, rfl, fun ht hc => ht ?_⟩
  have := congrArg (fun r : Response => r.2.Messages) hc
  simpa [ServeErrorResponse, ServeAppError, ServeMessageWithStatus,
    ServeMessagesWithStatus] using this

/-- Witness for C1 at the concrete error text `"boom"`. -/
theorem C1_serializeError_preserves_generic_text_witness :
    ServeErrorResponse (.generic "boom") = (APP_ERROR_CODE, ⟨["boom"]⟩)
    ∧ ServeErrorResponse (.generic "boom") ≠ ServeAppError := by
  have h := C1_serializeError_preserves_generic_text "boom"
  exact ⟨h.1, h.2.2 (by decide)⟩

/-- Claim C5: for every `AppError` with code `c` and message `m`, both
error serializers emit body `⟨[m]⟩`, with status `c` when `c ≠ 0` and
status `APP_ERROR_CODE` when `c = 0`. -/
theorem C5_appError_serialization (c : Int) (m : String) :
    ServeError (.appError c m) = (if c = 0 then APP_ERROR_CODE else c, ⟨[m]⟩)
    ∧ ServeErrorResponse (.appError c m) = (if c = 0 then APP_ERROR_CODE else c, ⟨[m]⟩) := by
  by_cases hc : c = 0 <;>
    simp [ServeError, ServeErrorResponse, ServeMessageWithStatus,
      ServeMessagesWithStatus, hc]

/-- Claim C10: for every non-`AppError` error value, `ServeError` emits
exactly what `ServeAppError` emits — status `APP_ERROR_CODE` with the single
fixed generic message, discarding the error's own text — while
`ServeErrorResponse` is the serializer that preserves the error's own
text. -/
theorem C10_serveError_generic_equals_serveAppError (t : String) :
    ServeError (.generic t) = ServeAppError
    ∧ ServeAppError = (APP_ERROR_CODE, ⟨[APP_ERROR_MSG]⟩)
    ∧ ServeErrorResponse (.generic t) = (APP_ERROR_CODE, ⟨[t]⟩) :=
  ⟨rfl, rfl, rfl⟩

/-- Claim C8: a binding failure (`ParseForm` error) and a validator-internal
failure (`valid.Valid` error) each make `ParseAndValidate` immediately emit
the fixed generic validation message with status `VALIDATION_ERROR_CODE` and
return `false`; the two emissions are identical, and in the binding-failure
case the validator outcome is never consulted. -/
theorem C8_short_circuit_on_bind_or_validator_failure
    (validResult : Option (Bool × List ValidationError))
    (fields : List (String × String)) :
    ParseAndValidate true validResult fields
      = (some (VALIDATION_ERROR_CODE, ⟨[VALIDATION_ERROR_MSG]⟩), false)
    ∧ ParseAndValidate false none fields
      = (some (VALIDATION_ERROR_CODE, ⟨[VALIDATION_ERROR_MSG]⟩), false)
    ∧ (ParseAndValidate true validResult fields
        = ParseAndValidate false none fields) :=
  ⟨rfl, rfl, rfl⟩

/-- Claim C9: a recovered runtime fault makes the panic guard emit exactly
one response — status `APP_ERROR_CODE` with the fixed generic message — and
assign a non-nil error through the caller's error pointer; with no fault the
guard emits nothing and leaves the error pointer unchanged. -/
theorem C9_catchPanic_guard (recovered outErr : Option String) :
    (∀ f, recovered = some f →
      CatchPanic recovered outErr = (some f, [(APP_ERROR_CODE, ⟨[APP_ERROR_MSG]⟩)])
      ∧ (CatchPanic recovered outErr).1 ≠ none)
    ∧ (recovered = none → CatchPanic recovered outErr = (outErr, [])) := by
  constructor
  · intro f hf
    subst hf
    exact ⟨rfl, by simp [CatchPanic, helperCatchPanic]⟩
  · intro h
    subst h
    rfl

/-- Claim C4, counterexample: with the secondary search root (`GOPATH`)
identical to the working directory `"/app"`, whose tree holds a single
`i18n` folder, `LoadFiles` records the folder as processed twice — once per
root invocation, since the revisit-skip compares only scanned
subdirectories' full paths against the working directory and never fires at
root level — refuting "each resource folder is processed at most once". -/
theorem C4_revisit_skip_counterexample :
    LoadFiles "/app" "/app" [Entry.dir "i18n" []] [Entry.dir "i18n" []] true
      = some ⟨["/app/i18n", "/app/i18n"], []⟩
    ∧ ¬ (∀ r, LoadFiles "/app" "/app" [Entry.dir "i18n" []] [Entry.dir "i18n" []] true
            = some r → r.processed.count "/app/i18n" ≤ 1) := by
  have h : LoadFiles "/app" "/app" [Entry.dir "i18n" []] [Entry.dir "i18n" []] true
      = some ⟨["/app/i18n", "/app/i18n"], []⟩ := by
    simp [LoadFiles, searchDirectory, loadTranslationFiles]
  refine ⟨h, fun hall => ?_⟩
  have h2 := hall _ h
  simp [List.count_cons] at h2

/-- Claim C4 as amended: when the secondary search root equals the working
directory, the traversal still terminates and a scanned subdirectory whose
full path equals the working directory is skipped entirely, but each
resource folder is processed exactly twice — once per root invocation — not
at most once. -/
theorem C4_revisit_skip_corrected (pwd : String) (hp : pwd ≠ "")
    (tree : List Entry) (p : String) (directory n : String)
    (children rest : List Entry) (hskip : directory ++ "/" ++ n = pwd) :
    (LoadFiles pwd pwd tree tree true).map (fun r => r.processed.count p)
      = some (2 * (searchDirectory pwd pwd tree).processed.count p)
    ∧ searchDirectory directory pwd (Entry.dir n children :: rest)
      = searchDirectory directory pwd rest := by
  constructor
  · have h1 : LoadFiles pwd pwd tree tree true
        = some ⟨(searchDirectory pwd pwd tree).processed
                  ++ (searchDirectory pwd pwd tree).processed,
                (searchDirectory pwd pwd tree).loaded
                  ++ (searchDirectory pwd pwd tree).loaded⟩ := by
      simp [LoadFiles, hp]
    rw [h1]
    simp [List.count_append, two_mul]
  · rw [searchDirectory.eq_def]
    simp [hskip]

/-- Witness for the amended C4: the working directory `"/app"` doubling as
`GOPATH`, a tree with one `i18n` folder (processed-count doubled from 1 to
2), and the skip of a scanned subdirectory whose full path is exactly
`"/app"`. -/
theorem C4_revisit_skip_corrected_witness :
    (LoadFiles "/app" "/app" [Entry.dir "i18n" []] [Entry.dir "i18n" []] true).map
        (fun r => r.processed.count "/app/i18n")
      = some (2 * (searchDirectory "/app" "/app" [Entry.dir "i18n" []]).processed.count
          "/app/i18n")
    ∧ searchDirectory "" "/app" [Entry.dir "app" []] = searchDirectory "" "/app" [] :=
  C4_revisit_skip_corrected "/app" (by decide) [Entry.dir "i18n" []] "/app/i18n"
    "" "app" [] [] (by decide)

/-- Helper for C6: under a traversal in which no scanned subdirectory's full
path equals the working directory, the files loaded by `searchDirectory` are
exactly those of the spec-level traversal. Proven by recursion over the
directory tree. -/
theorem searchDirectory_loaded_eq_spec (pwd directory : String) (entries : List Entry)
    (h : pwdFree directory pwd entries = true) :
    (searchDirectory directory pwd entries).loaded = specResourceFiles directory entries := by
  match entries with
  | [] => simp [searchDirectory, specResourceFiles]
  | e :: rest =>
    rw [pwdFree.eq_def] at h
    rw [Bool.and_eq_true] at h
    obtain ⟨he, hrest⟩ := h
    have ihrest := searchDirectory_loaded_eq_spec pwd directory rest hrest
    rw [searchDirectory.eq_def, specResourceFiles.eq_def]
    cases e with
    | file n => simpa using ihrest
    | dirErr n =>
        have hne : directory ++ "/" ++ n ≠ pwd := by simpa using he
        by_cases hn : n = "i18n"
        · subst hn
          simp [hne, ihrest]
        · simp [hne, hn, ihrest]
    | dir n children =>
        rw [Bool.and_eq_true] at he
        obtain ⟨hne', hchild⟩ := he
        have hne : directory ++ "/" ++ n ≠ pwd := by simpa using hne'
        have ihchild := searchDirectory_loaded_eq_spec pwd (directory ++ "/" ++ n) children hchild
        by_cases hn : n = "i18n"
        · subst hn
          simp [hne, loadTranslationFiles, ihrest]
        · simp [hne, hn, ihchild, ihrest]
termination_by sizeOf entries

/-- Claim C6: whenever the revisit-skip does not fire (no scanned
subdirectory's full path equals the working directory), the traversal loads
exactly what the spec-level traversal describes: a directory named `i18n` is
not descended into recursively and contributes exactly its immediate
children with extension `.json`, every other directory is descended into
recursively — so a resource file one level deeper inside an `i18n` folder is
never loaded. -/
theorem C6_resource_folder_loading (pwd directory : String) (entries : List Entry)
    (h : pwdFree directory pwd entries = true) :
    (searchDirectory directory pwd entries).loaded
      = specResourceFiles directory entries :=
  searchDirectory_loaded_eq_spec pwd directory entries h

/-- Witness for C6 at the spec's concrete example tree: both `i18n` folders
are discovered, only `"/r/x/i18n/en.json"` is loaded, and the `.json` file
one level deeper (`"/r/i18n/sub/x.json"`) is not loaded. -/
theorem C6_resource_folder_loading_witness :
    (searchDirectory "/r" "/r" exampleTree).loaded = specResourceFiles "/r" exampleTree
    ∧ (searchDirectory "/r" "/r" exampleTree).loaded = ["/r/x/i18n/en.json"]
    ∧ "/r/i18n/sub/x.json" ∉ (searchDirectory "/r" "/r" exampleTree).loaded
    ∧ (searchDirectory "/r" "/r" exampleTree).processed = ["/r/x/i18n", "/r/i18n"] := by
  have hload : (searchDirectory "/r" "/r" exampleTree).loaded = ["/r/x/i18n/en.json"] := by
    simp [exampleTree, searchDirectory, loadTranslationFiles]
    decide
  refine ⟨C6_resource_folder_loading "/r" "/r" exampleTree (by simp [exampleTree, pwdFree]),
    hload, ?_, ?_⟩
  · rw [hload]
    decide
  · simp [exampleTree, searchDirectory]

/-- Claim C7: a directory-read failure during traversal is non-fatal — an
unreadable (non-`i18n`, non-working-directory) subdirectory contributes
nothing and the rest of the traversal is unaffected — whereas in `LoadJSON`
a document parse failure is surfaced as an error with nothing registered,
and a per-record construction failure is surfaced as an error with exactly
the records before the failing one remaining registered (no rollback). -/
theorem C7_load_failure_semantics (directory pwd n : String) (rest : List Entry)
    (hn : n ≠ "i18n") (hp : directory ++ "/" ++ n ≠ pwd) (locale : String)
    (newTranslation : String → Option String) (store : List (String × String))
    (pre post : List String) (r : String) (tr : String → String)
    (hpre : ∀ x ∈ pre, newTranslation x = some (tr x))
    (hr : newTranslation r = none) (tfuncOk : Bool) :
    searchDirectory directory pwd (Entry.dirErr n :: rest)
      = searchDirectory directory pwd rest
    ∧ LoadJSON locale none newTranslation store tfuncOk = (store, true)
    ∧ LoadJSON locale (some (pre ++ r :: post)) newTranslation store tfuncOk
        = (store ++ pre.map (fun x => (locale, tr x)), true) := by
  refine ⟨?_, rfl, ?_⟩
  · rw [searchDirectory.eq_def]
    simp [hp, hn]
  · have hrec : ∀ s : List (String × String),
        loadRecs locale newTranslation (pre ++ r :: post) s
          = (s ++ pre.map (fun x => (locale, tr x)), true) := by
      induction pre with
      | nil => intro s; simp [loadRecs, hr]
      | cons x xs ih =>
          intro s
          have hx : newTranslation x = some (tr x) :=
            hpre x (List.mem_cons_self x xs)
          simp only [List.cons_append, loadRecs, hx, List.append_eq]
          rw [ih (fun y hy => hpre y (List.mem_cons_of_mem x hy)) (s ++ [(locale, tr x)])]
          simp
    simp [LoadJSON, hrec store]

/-- Witness for C7: an unreadable subdirectory `"/a/x"` skipped during a
traversal rooted at `"/a"`, a failed document parse, and a record
constructor that fails on the third record with the first two remaining
registered. -/
theorem C7_load_failure_semantics_witness :
    searchDirectory "/a" "/b" [Entry.dirErr "x"] = searchDirectory "/a" "/b" []
    ∧ LoadJSON "en" none (fun s => if s = "bad" then none else some (s ++ "!"))
        [("en", "hello")] true = ([("en", "hello")], true)
    ∧ LoadJSON "en" (some (["a", "b"] ++ "bad" :: ["c"]))
        (fun s => if s = "bad" then none else some (s ++ "!"))
        [("en", "hello")] true
      = ([("en", "hello")] ++ ["a", "b"].map (fun x => ("en", x ++ "!")), true) :=
  C7_load_failure_semantics "/a" "/b" "x" [] (by decide) (by decide) "en"
    (fun s => if s = "bad" then none else some (s ++ "!")) [("en", "hello")]
    ["a", "b"] ["c"] "bad" (fun s => s ++ "!") (by decide) (by decide) true

/-- Witness for C9: a concrete recovered fault and a concrete fault-free
run. -/
theorem C9_catchPanic_guard_witness :
    CatchPanic (some "runtime fault") none
      = (some "runtime fault", [(APP_ERROR_CODE, ⟨[APP_ERROR_MSG]⟩)])
    ∧ CatchPanic none (some "earlier") = (some "earlier", []) :=
  ⟨(C9_catchPanic_guard (some "runtime fault") none).1 "runtime fault" rfl |>.1,
   (C9_catchPanic_guard none (some "earlier")).2 rfl⟩

end GoCommon
